import Mathlib

/-!
Verification of the YouTube transcript ingestion pipeline (src/app.py)
against its natural-language specification.

Strings are modelled as `List Char`; Python regular-expression searches,
the Chroma collection, and the transcript-acquisition fallback chain are
embedded as explicit Lean functions over that representation.  The Chunker
and the Retrieval Engine described by the specification have no
implementation under src/; they are modelled from the specification text
and marked as such in their doc comments.
-/

/-- The character class `[a-zA-Z0-9_-]` used by the three video-id regular
expressions in `extract_video_id` (src/app.py lines 44-47). -/
def isVideoIdChar (c : Char) : Bool :=
  c.isAlpha || c.isDigit || c == '_' || c == '-'

/-- `takeExact n s` consumes exactly `n` leading characters of `s`, all of
which must satisfy `isVideoIdChar`; models the regex piece
`([a-zA-Z0-9_-]\x7b11\x7d)` (with `n = 11`). -/
def takeExact : Nat → List Char → Option (List Char)
  | 0, _ => some []
  | _ + 1, [] => none
  | n + 1, c :: cs =>
      if isVideoIdChar c then (takeExact n cs).map (fun v => c :: v) else none

/-- `litMatch lit s` holds when `lit` is a literal prefix of `s`. -/
def litMatch : List Char → List Char → Bool
  | [], _ => true
  | _ :: _, [] => false
  | a :: as, b :: bs => a == b && litMatch as bs

/-- Attempt to match `lit` followed by exactly 11 video-id characters at the
head of `s`, returning the 11-character capture. -/
def matchCapture (lit s : List Char) : Option (List Char) :=
  if litMatch lit s then takeExact 11 (s.drop lit.length) else none

/-- Leftmost search for `lit` followed by 11 video-id characters: the Lean
rendering of Python `re.search(lit + r"([a-zA-Z0-9_-]\x7b11\x7d)", s)` for a
literal `lit`. -/
def searchCapture (lit : List Char) : List Char → Option (List Char)
  | [] => matchCapture lit []
  | c :: cs =>
      match matchCapture lit (c :: cs) with
      | some v => some v
      | none => searchCapture lit cs

/-- `extract_video_id` from src/app.py lines 43-53: try the three patterns
`v=(...)`, `youtu.be/(...)`, `youtube.com/embed/(...)` in order and return
the first capture, or `none`. -/
def extract_video_id (url : List Char) : Option (List Char) :=
  match searchCapture (("v=").toList) url with
  | some v => some v
  | none =>
      match searchCapture (("youtu.be/").toList) url with
      | some v => some v
      | none => searchCapture (("youtube.com/embed/").toList) url

/-- Python `repr` of a boolean, as interpolated into the diagnostics string
(src/app.py lines 189-191). -/
def pyBool (b : Bool) : List Char :=
  if b then ("True").toList else ("False").toList

/-- The diagnostics message built at src/app.py lines 188-192 when every
transcript-acquisition strategy has failed: it reports only whether each
library is installed. -/
def diagnosticsMsg (yt pt rq : Bool) : List Char :=
  ("Unable to fetch transcript via any method. Diagnostics: youtube_transcript_api_installed=").toList
    ++ pyBool yt
    ++ ("; pytube_installed=").toList ++ pyBool pt
    ++ ("; requests_installed=").toList ++ pyBool rq

instance {ε α : Type} [DecidableEq ε] [DecidableEq α] : DecidableEq (Except ε α) := by
  intro a b
  cases a <;> cases b
  case error.error x y =>
    exact if h : x = y then isTrue (by rw [h]) else isFalse (by intro hh; cases hh; exact h rfl)
  case error.ok x y => exact isFalse (by intro hh; cases hh)
  case ok.error x y => exact isFalse (by intro hh; cases hh)
  case ok.ok x y =>
    exact if h : x = y then isTrue (by rw [h]) else isFalse (by intro hh; cases hh; exact h rfl)

/-- Environment of `get_youtube_transcript_any`: which acquisition libraries
are importable (module-level flags, src/app.py lines 9-36) and the net
outcome of each strategy's attempt block.  Each outcome is either the
transcript text the block would return, or the reason (exception message)
for which every call inside the block failed; the code discards these
reasons with bare `except` clauses. -/
structure FetchEnv where
  ytAvail : Bool
  ptAvail : Bool
  rqAvail : Bool
  ytOutcome : Except (List Char) (List Char)
  ptOutcome : Except (List Char) (List Char)
  rqOutcome : Except (List Char) (List Char)
deriving DecidableEq

/-- Strategy 3 (src/app.py lines 177-185): the timedtext text is returned
only when its strip is non-empty; otherwise control falls through to the
diagnostics error. -/
def tryTimedtext (env : FetchEnv) : Except (List Char) (List Char) :=
  match (if env.rqAvail then env.rqOutcome else Except.error []) with
  | Except.ok t =>
      if t.all Char.isWhitespace then
        Except.error (diagnosticsMsg env.ytAvail env.ptAvail env.rqAvail)
      else Except.ok t
  | Except.error _ =>
      Except.error (diagnosticsMsg env.ytAvail env.ptAvail env.rqAvail)

/-- Strategy 2, pytube captions (src/app.py lines 170-175): any success is
returned as-is; any exception is swallowed and control moves on. -/
def tryPytube (env : FetchEnv) : Except (List Char) (List Char) :=
  match (if env.ptAvail then env.ptOutcome else Except.error []) with
  | Except.ok t => Except.ok t
  | Except.error _ => tryTimedtext env

/-- `get_youtube_transcript_any` from src/app.py lines 116-192: reject
invalid URLs first, then try youtube_transcript_api, pytube and the
timedtext endpoint in order, swallowing each attempt's exception; if all
fail, raise the diagnostics RuntimeError. -/
def get_youtube_transcript_any (env : FetchEnv) (url : List Char) :
    Except (List Char) (List Char) :=
  match extract_video_id url with
  | none => Except.error (("Invalid YouTube URL format.").toList)
  | some _ =>
      match (if env.ytAvail then env.ytOutcome else Except.error []) with
      | Except.ok t => Except.ok t
      | Except.error _ => tryPytube env

/-- One stored record of the Chroma collection `youtube_transcripts`:
`collection.add(documents=[text], ids=[doc_id], metadatas=[...])` at
src/app.py line 204 stores a document text, its id (a fresh `uuid4`,
modelled as a natural number) and the metadata mapping, whose only key here
is `url`. -/
structure Entry where
  id : Nat
  doc : List Char
  url : List Char
deriving DecidableEq

/-- Failure identity of one `add_transcript_to_collection` call: Python
returns `None` on every failure, but each failure branch surfaces a
distinct user-visible message. `EmptyContent` is the branch
`st.error("Transcript fetched but empty.")` (src/app.py lines 199-201);
`FetchError` carries the message of the exception raised by
`get_youtube_transcript_any` and caught at line 206; `WriteError` is an
exception raised by `collection.add` itself, caught by the same handler. -/
inductive IngestFailure where
  | EmptyContent
  | FetchError (msg : List Char)
  | WriteError
deriving DecidableEq

/-- Full observable result of one `add_transcript_to_collection` call:
the returned value (success id or failure identity), the collection state
after the call, and how many times `collection.add` was invoked. -/
structure AddResult where
  ret : Except IngestFailure Nat
  coll : List Entry
  addCalls : Nat
deriving DecidableEq

/-- `add_transcript_to_collection` from src/app.py lines 195-208: fetch the
transcript; if fetching raises, catch and return `None`; if the text is
empty or whitespace-only, report and return `None`; otherwise call
`collection.add` once with the whole text as a single document under a
fresh uuid and metadata `url`.  `addOk` tells whether that
`collection.add` call succeeds (on failure its exception is caught by the
same handler, adding nothing). -/
def add_transcript_to_collection (env : FetchEnv) (addOk : Bool) (fresh : Nat)
    (url : List Char) (coll : List Entry) : AddResult :=
  match get_youtube_transcript_any env url with
  | Except.error m =>
      { ret := Except.error (IngestFailure.FetchError m), coll := coll, addCalls := 0 }
  | Except.ok t =>
      if t.all Char.isWhitespace then
        { ret := Except.error IngestFailure.EmptyContent, coll := coll, addCalls := 0 }
      else if addOk then
        { ret := Except.ok fresh, coll := coll ++ [⟨fresh, t, url⟩], addCalls := 1 }
      else
        { ret := Except.error IngestFailure.WriteError, coll := coll, addCalls := 1 }

/-- Modelled from the spec: the error kinds of §7 (spec.md).  The Chunker
and Retrieval Engine are absent from src/ (only the spec describes them),
so their failure kinds are taken from the spec's list. -/
inductive ErrKind where
  | InvalidConfiguration
  | EmptyContent
  | EmptyQuery
  | DimensionMismatch
  | EmbeddingUnavailable
  | IndexWriteError
  | IndexQueryError
deriving DecidableEq

/-- Whitespace tokenisation, splitting on runs of whitespace and dropping
empty pieces (the spec's "split on whitespace" word tokens, §4.1); `acc`
holds the characters of the token in progress, reversed. -/
def splitTokensAux : List Char → List Char → List (List Char)
  | [], acc => if acc.isEmpty then [] else [acc.reverse]
  | c :: cs, acc =>
      if c.isWhitespace then
        if acc.isEmpty then splitTokensAux cs []
        else acc.reverse :: splitTokensAux cs []
      else splitTokensAux cs (c :: acc)

/-- Modelled from the spec: treat the text as an ordered sequence of
whitespace-separated tokens (spec.md §4.1). -/
def splitTokens (s : List Char) : List (List Char) :=
  splitTokensAux s []

/-- Join tokens with single spaces (spec.md §4.1: windows are "joined with
single spaces to form chunk text"). -/
def joinTokens : List (List Char) → List Char
  | [] => []
  | [t] => t
  | t :: ts => t ++ ' ' :: joinTokens ts

/-- Fuel-indexed window loop: starting at token index `start`, emit the
join of the next `size` tokens and advance by the stride `sm1 + 1`; stop
once the start index reaches the token count.  `fuel` only bounds the
recursion depth; any `fuel ≥ toks.length - start` gives the full loop. -/
def chunkLoopF (toks : List (List Char)) (size sm1 : Nat) :
    Nat → Nat → List (List Char)
  | 0, _ => []
  | fuel + 1, start =>
      if start < toks.length then
        joinTokens ((toks.drop start).take size)
          :: chunkLoopF toks size sm1 fuel (start + sm1 + 1)
      else []

/-- Modelled from the spec: the window loop of the Chunker (spec.md §4.1).
Windows start at token index `start` and advance by the stride `sm1 + 1`
(the stride `size - overlap` is passed as its predecessor `sm1` so that it
is positive by construction); the loop stops once the start index reaches
the token count. -/
def chunkLoop (toks : List (List Char)) (size sm1 start : Nat) : List (List Char) :=
  chunkLoopF toks size sm1 (toks.length - start) start

/-- Modelled from the spec: the Chunker contract of spec.md §4.1, absent
from src/.  `chunk text size overlap minLen` fails with
`InvalidConfiguration` unless `size > overlap ≥ 0`; otherwise it produces
windows of `size` tokens starting at multiples of `size - overlap`, joined
by single spaces, and discards any chunk shorter than `minLen` characters
(the minimum-length threshold, default 20, disabled by `minLen = 0`). -/
def chunk (text : List Char) (size overlap minLen : Nat) :
    Except ErrKind (List (List Char)) :=
  if overlap < size then
    Except.ok
      ((chunkLoop (splitTokens text) size (size - overlap - 1) 0).filter
        (fun c => minLen ≤ c.length))
  else Except.error ErrKind.InvalidConfiguration

/-- Modelled from the spec: a persisted chunk of the Vector Index (spec.md
§3, §6); the `chunk_id` is modelled as a natural number and the embedding
vector as a list of integers. -/
structure StoredChunk where
  id : Nat
  text : List Char
  vec : List Int
deriving DecidableEq

/-- Modelled from the spec: ranking order of the Retrieval Engine (spec.md
§4.3) — strictly descending similarity score, ties broken by ascending
chunk id. -/
def rankRel (score : StoredChunk → Int) (a b : StoredChunk) : Prop :=
  score b < score a ∨ (score a = score b ∧ a.id ≤ b.id)

instance (score : StoredChunk → Int) : DecidableRel (rankRel score) := by
  intro a b
  unfold rankRel
  infer_instance

/-- Modelled from the spec: the Vector Index `query` capability (spec.md
§6) — the `k` best-scoring stored chunks, best first. -/
def queryIndex (idx : List StoredChunk) (score : StoredChunk → Int) (k : Nat) :
    List StoredChunk :=
  (idx.insertionSort (rankRel score)).take k

/-- Modelled from the spec: the Retrieval Engine `retrieve` contract
(spec.md §4.3), absent from src/: fail with `EmptyQuery` on an
empty/whitespace-only query, otherwise return the ranked top-`k` matches;
`score` abstracts the similarity of the embedded query to each stored
chunk. -/
def retrieve (q : List Char) (k : Nat) (idx : List StoredChunk)
    (score : StoredChunk → Int) : Except ErrKind (List StoredChunk) :=
  if q.all Char.isWhitespace then Except.error ErrKind.EmptyQuery
  else Except.ok (queryIndex idx score k)

/-- Substring test: `hasSub pat s` holds when `pat` occurs contiguously in
`s`; used to state which texts a diagnostics message mentions. -/
def hasSub (pat : List Char) : List Char → Bool
  | [] => litMatch pat []
  | c :: cs => litMatch pat (c :: cs) || hasSub pat cs

/-- A URL accepted by `extract_video_id` via the `youtu.be/` pattern. -/
def urlOk : List Char := ("https://youtu.be/abcdefghijk").toList

/-- An eight-token transcript text. -/
def fullT : List Char := ("a b c d e f g h").toList

/-- Environment whose first strategy succeeds with the empty transcript. -/
def envEmptyT : FetchEnv :=
  ⟨true, false, false, Except.ok [], Except.error [], Except.error []⟩

/-- Environment whose first strategy succeeds with `fullT`. -/
def envOkT : FetchEnv :=
  ⟨true, false, false, Except.ok fullT, Except.error [], Except.error []⟩

/-- Environment where every strategy is available and fails, each with its
own distinct reason. -/
def envAllFail : FetchEnv :=
  ⟨true, true, true, Except.error (("boom1").toList),
    Except.error (("boom2").toList), Except.error (("boom3").toList)⟩

lemma takeExact_spec : ∀ (n : Nat) (s v : List Char),
    takeExact n s = some v → v.length = n ∧ v.all isVideoIdChar = true := by
  intro n
  induction n with
  | zero =>
      intro s v h
      simp [takeExact] at h
      subst h
      simp
  | succ m ih =>
      intro s v h
      cases s with
      | nil => simp [takeExact] at h
      | cons c cs =>
          by_cases hc : isVideoIdChar c
          · simp [takeExact, hc] at h
            obtain ⟨w, hw, hv⟩ := h
            obtain ⟨hl, ha⟩ := ih cs w hw
            subst hv
            constructor
            · simp [hl]
            · simp [List.all_cons, hc, ha]
          · simp [takeExact, hc] at h

lemma matchCapture_spec (lit s v : List Char) (h : matchCapture lit s = some v) :
    v.length = 11 ∧ v.all isVideoIdChar = true := by
  unfold matchCapture at h
  by_cases hp : litMatch lit s
  · rw [if_pos hp] at h
    exact takeExact_spec 11 (s.drop lit.length) v h
  · rw [if_neg hp] at h
    exact absurd h (by simp)

lemma searchCapture_spec (lit : List Char) :
    ∀ (s v : List Char), searchCapture lit s = some v →
      v.length = 11 ∧ v.all isVideoIdChar = true := by
  intro s
  induction s with
  | nil =>
      intro v h
      exact matchCapture_spec lit [] v h
  | cons c cs ih =>
      intro v h
      unfold searchCapture at h
      cases hm : matchCapture lit (c :: cs) with
      | some w =>
          rw [hm] at h
          cases h
          exact matchCapture_spec lit (c :: cs) v hm
      | none =>
          rw [hm] at h
          exact ih v h

lemma extract_video_id_spec (url v : List Char)
    (h : extract_video_id url = some v) :
    v.length = 11 ∧ v.all isVideoIdChar = true := by
  unfold extract_video_id at h
  cases h1 : searchCapture (("v=").toList) url with
  | some w =>
      rw [h1] at h
      cases h
      exact searchCapture_spec _ url v h1
  | none =>
      rw [h1] at h
      cases h2 : searchCapture (("youtu.be/").toList) url with
      | some w =>
          rw [h2] at h
          cases h
          exact searchCapture_spec _ url v h2
      | none =>
          rw [h2] at h
          exact searchCapture_spec _ url v h

lemma chunkLoopF_get (toks : List (List Char)) (size sm1 : Nat) :
    ∀ (fuel start : Nat), toks.length ≤ start + fuel →
      ∀ j : Nat,
        (chunkLoopF toks size sm1 fuel start).get? j =
          if start + j * (sm1 + 1) < toks.length then
            some (joinTokens ((toks.drop (start + j * (sm1 + 1))).take size))
          else none := by
  intro fuel
  induction fuel with
  | zero =>
      intro start hfuel j
      have hge : toks.length ≤ start + j * (sm1 + 1) :=
        Nat.le_trans (by simpa using hfuel) (Nat.le_add_right _ _)
      simp [chunkLoopF, Nat.not_lt.mpr hge]
  | succ m ih =>
      intro start hfuel j
      by_cases h : start < toks.length
      · cases j with
        | zero => simp [chunkLoopF, h]
        | succ i =>
            have hfuel2 : toks.length ≤ start + sm1 + 1 + m := by omega
            have harith : start + sm1 + 1 + i * (sm1 + 1) = start + (i + 1) * (sm1 + 1) := by
              ring
            simp only [chunkLoopF, if_pos h, List.get?_cons_succ]
            rw [ih (start + sm1 + 1) hfuel2 i, harith]
      · have hge : toks.length ≤ start + j * (sm1 + 1) :=
          Nat.le_trans (Nat.le_of_not_lt h) (Nat.le_add_right _ _)
        simp [chunkLoopF, h, Nat.not_lt.mpr hge]

lemma chunkLoop_get (toks : List (List Char)) (size sm1 : Nat)
    (j start : Nat) :
    (chunkLoop toks size sm1 start).get? j =
      if start + j * (sm1 + 1) < toks.length then
        some (joinTokens ((toks.drop (start + j * (sm1 + 1))).take size))
      else none := by
  unfold chunkLoop
  exact chunkLoopF_get toks size sm1 (toks.length - start) start (by omega) j

lemma add_run_fetch_err (env : FetchEnv) (addOk : Bool) (fresh : Nat)
    (url : List Char) (coll : List Entry) (m : List Char)
    (hf : get_youtube_transcript_any env url = Except.error m) :
    add_transcript_to_collection env addOk fresh url coll =
      { ret := Except.error (IngestFailure.FetchError m), coll := coll,
        addCalls := 0 } := by
  unfold add_transcript_to_collection
  rw [hf]

lemma add_run_empty (env : FetchEnv) (addOk : Bool) (fresh : Nat)
    (url : List Char) (coll : List Entry) (t : List Char)
    (hf : get_youtube_transcript_any env url = Except.ok t)
    (hw : t.all Char.isWhitespace = true) :
    add_transcript_to_collection env addOk fresh url coll =
      { ret := Except.error IngestFailure.EmptyContent, coll := coll,
        addCalls := 0 } := by
  unfold add_transcript_to_collection
  rw [hf]
  simp [hw]

lemma add_run_ok (env : FetchEnv) (fresh : Nat) (url : List Char)
    (coll : List Entry) (t : List Char)
    (hf : get_youtube_transcript_any env url = Except.ok t)
    (hw : t.all Char.isWhitespace = false) :
    add_transcript_to_collection env true fresh url coll =
      { ret := Except.ok fresh, coll := coll ++ [⟨fresh, t, url⟩],
        addCalls := 1 } := by
  unfold add_transcript_to_collection
  rw [hf]
  simp [hw]

lemma add_run_write_fail (env : FetchEnv) (fresh : Nat) (url : List Char)
    (coll : List Entry) (t : List Char)
    (hf : get_youtube_transcript_any env url = Except.ok t)
    (hw : t.all Char.isWhitespace = false) :
    add_transcript_to_collection env false fresh url coll =
      { ret := Except.error IngestFailure.WriteError, coll := coll,
        addCalls := 1 } := by
  unfold add_transcript_to_collection
  rw [hf]
  simp [hw]

/-- Claim C4: the Chunker is fixed-stride token windowing — for
`size > overlap`, chunking with the minimum-length filter disabled yields,
at each position `j`, the join (by single spaces) of the `size` tokens
starting at token index `j * (size - overlap)` (fewer for the final
window), and nothing else; in particular chunking
`"a b c d e f g h"` with `size = 4`, `overlap = 1` yields exactly
`"a b c d"`, `"d e f g"`, `"g h"`. -/
theorem C4_chunk_windows (text : List Char) (size overlap : Nat)
    (h : overlap < size) :
    (∃ cs, chunk text size overlap 0 = Except.ok cs ∧
      ∀ j : Nat, cs.get? j =
        if j * (size - overlap) < (splitTokens text).length then
          some (joinTokens
            (((splitTokens text).drop (j * (size - overlap))).take size))
        else none) ∧
    chunk (("a b c d e f g h").toList) 4 1 0 =
      Except.ok [("a b c d").toList, ("d e f g").toList, ("g h").toList] := by
  constructor
  · refine ⟨chunkLoop (splitTokens text) size (size - overlap - 1) 0, ?_, ?_⟩
    · unfold chunk
      rw [if_pos h]
      congr 1
      rw [List.filter_eq_self]
      intro a _
      simp
    · intro j
      rw [chunkLoop_get]
      have hs : size - overlap - 1 + 1 = size - overlap := by omega
      rw [hs]
      simp
  · rfl

/-- Witness for C4 at `text = "a b c d e f g h"`, `size = 4`,
`overlap = 1`. -/
theorem C4_chunk_windows_witness :
    (∃ cs, chunk (("a b c d e f g h").toList) 4 1 0 = Except.ok cs ∧
      ∀ j : Nat, cs.get? j =
        if j * (4 - 1) < (splitTokens (("a b c d e f g h").toList)).length then
          some (joinTokens
            (((splitTokens (("a b c d e f g h").toList)).drop (j * (4 - 1))).take 4))
        else none) ∧
    chunk (("a b c d e f g h").toList) 4 1 0 =
      Except.ok [("a b c d").toList, ("d e f g").toList, ("g h").toList] :=
  C4_chunk_windows (("a b c d e f g h").toList) 4 1 (by decide)

/-- Claim C5: any parameters violating `size > overlap` make the Chunker
fail with `InvalidConfiguration`; in particular `(10, 10)` and
`(10, 20)`. -/
theorem C5_invalid_config (text : List Char) (size overlap minLen : Nat)
    (h : size ≤ overlap) :
    chunk text size overlap minLen = Except.error ErrKind.InvalidConfiguration ∧
    chunk text 10 10 minLen = Except.error ErrKind.InvalidConfiguration ∧
    chunk text 10 20 minLen = Except.error ErrKind.InvalidConfiguration := by
  refine ⟨?_, ?_, ?_⟩ <;> unfold chunk
  · rw [if_neg (by omega)]
  · rw [if_neg (by omega)]
  · rw [if_neg (by omega)]

/-- Witness for C5 at `text = "x"`, `size = overlap = 10`. -/
theorem C5_invalid_config_witness :
    chunk (("x").toList) 10 10 0 = Except.error ErrKind.InvalidConfiguration ∧
    chunk (("x").toList) 10 10 0 = Except.error ErrKind.InvalidConfiguration ∧
    chunk (("x").toList) 10 20 0 = Except.error ErrKind.InvalidConfiguration :=
  C5_invalid_config (("x").toList) 10 10 0 (by decide)

/-- Claim C8: `extract_video_id` returns either `none` or an 11-character
string drawn from `[a-zA-Z0-9_-]` — the capture of the first matching
pattern; it is a pure function of the URL. -/
theorem C8_video_id_shape (url : List Char) :
    extract_video_id url = none ∨
      ∃ v, extract_video_id url = some v ∧
        v.length = 11 ∧ v.all isVideoIdChar = true := by
  cases hx : extract_video_id url with
  | none => exact Or.inl rfl
  | some v => exact Or.inr ⟨v, rfl, extract_video_id_spec url v hx⟩

/-- Claim C9: whenever `extract_video_id` yields no id, the transcript
getter fails with exactly `"Invalid YouTube URL format."` — for every
environment, so no acquisition strategy is even consulted. -/
theorem C9_invalid_url_early (env : FetchEnv) (url : List Char)
    (h : extract_video_id url = none) :
    get_youtube_transcript_any env url =
      Except.error (("Invalid YouTube URL format.").toList) := by
  unfold get_youtube_transcript_any
  rw [h]

/-- Witness for C9 at `url = "hello"` (no pattern matches) and an
environment in which every strategy would succeed. -/
theorem C9_invalid_url_early_witness :
    get_youtube_transcript_any
        ⟨true, true, true, Except.ok fullT, Except.ok fullT, Except.ok fullT⟩
        (("hello").toList) =
      Except.error (("Invalid YouTube URL format.").toList) :=
  C9_invalid_url_early
    ⟨true, true, true, Except.ok fullT, Except.ok fullT, Except.ok fullT⟩
    (("hello").toList) (by rfl)

/-- Claim C2: whenever the fetched transcript text is empty or
whitespace-only, `add_transcript_to_collection` fails on the
`EmptyContent` branch ("Transcript fetched but empty.", returning `None`),
leaves the collection unchanged and never calls `collection.add`. -/
theorem C2_empty_transcript (env : FetchEnv) (addOk : Bool) (fresh : Nat)
    (url : List Char) (coll : List Entry) (t : List Char)
    (hf : get_youtube_transcript_any env url = Except.ok t)
    (hw : t.all Char.isWhitespace = true) :
    add_transcript_to_collection env addOk fresh url coll =
      { ret := Except.error IngestFailure.EmptyContent, coll := coll,
        addCalls := 0 } :=
  add_run_empty env addOk fresh url coll t hf hw

/-- Witness for C2: the first strategy returns the empty transcript for a
well-formed URL; the call reports `EmptyContent` and writes nothing. -/
theorem C2_empty_transcript_witness :
    add_transcript_to_collection envEmptyT true 0 urlOk [] =
      { ret := Except.error IngestFailure.EmptyContent, coll := [],
        addCalls := 0 } :=
  C2_empty_transcript envEmptyT true 0 urlOk [] [] (by rfl) (by decide)

/-- Claim C3: a successful `add_transcript_to_collection` call only
appends — the new collection is the old one followed by exactly one fresh
entry, every pre-existing entry is unchanged at its position, and the
length grows, so re-ingesting the same source appends a duplicate rather
than replacing. -/
theorem C3_append_only (env : FetchEnv) (addOk : Bool) (fresh : Nat)
    (url : List Char) (coll : List Entry) (rid : Nat)
    (h : (add_transcript_to_collection env addOk fresh url coll).ret =
      Except.ok rid) :
    ∃ t, get_youtube_transcript_any env url = Except.ok t ∧
      (add_transcript_to_collection env addOk fresh url coll).coll =
        coll ++ [{ id := rid, doc := t, url := url }] ∧
      (∀ i, i < coll.length →
        (add_transcript_to_collection env addOk fresh url coll).coll.get? i =
          coll.get? i) ∧
      coll.length <
        (add_transcript_to_collection env addOk fresh url coll).coll.length := by
  cases hf : get_youtube_transcript_any env url with
  | error m =>
      rw [add_run_fetch_err env addOk fresh url coll m hf] at h
      simp at h
  | ok t =>
      by_cases hw : t.all Char.isWhitespace = true
      · rw [add_run_empty env addOk fresh url coll t hf hw] at h
        simp at h
      · have hw2 : t.all Char.isWhitespace = false := by simpa using hw
        cases addOk with
        | false =>
            rw [add_run_write_fail env fresh url coll t hf hw2] at h
            simp at h
        | true =>
            rw [add_run_ok env fresh url coll t hf hw2] at h
            have hrid : rid = fresh := by
              simp at h
              omega
            subst hrid
            refine ⟨t, rfl, ?_, ?_, ?_⟩
            · rw [add_run_ok env rid url coll t hf hw2]
            · intro i hi
              rw [add_run_ok env rid url coll t hf hw2]
              exact List.get?_append hi
            · rw [add_run_ok env rid url coll t hf hw2]
              simp

/-- Witness for C3: a successful ingestion over a one-entry collection
appends exactly one new entry and keeps the old one. -/
theorem C3_append_only_witness :
    ∃ t, get_youtube_transcript_any envOkT urlOk = Except.ok t ∧
      (add_transcript_to_collection envOkT true 7 urlOk
          [{ id := 3, doc := fullT, url := urlOk }]).coll =
        [{ id := 3, doc := fullT, url := urlOk }] ++
          [{ id := 7, doc := t, url := urlOk }] ∧
      (∀ i, i < ([{ id := 3, doc := fullT, url := urlOk }] : List Entry).length →
        (add_transcript_to_collection envOkT true 7 urlOk
            [{ id := 3, doc := fullT, url := urlOk }]).coll.get? i =
          ([{ id := 3, doc := fullT, url := urlOk }] : List Entry).get? i) ∧
      ([{ id := 3, doc := fullT, url := urlOk }] : List Entry).length <
        (add_transcript_to_collection envOkT true 7 urlOk
            [{ id := 3, doc := fullT, url := urlOk }]).coll.length :=
  C3_append_only envOkT true 7 urlOk
    [{ id := 3, doc := fullT, url := urlOk }] 7 (by rfl)

/-- Claim C10: `add_transcript_to_collection` never propagates an
exception: it always returns a definite result; if fetching fails or the
fetched text is empty/whitespace-only it returns `None` without touching
the collection and without calling `collection.add`; `collection.add` is
invoked at most once, and on every failure path the collection is
unchanged, while on success exactly one document is appended. -/
theorem C10_no_propagation (env : FetchEnv) (addOk : Bool) (fresh : Nat)
    (url : List Char) (coll : List Entry) :
    (add_transcript_to_collection env addOk fresh url coll).addCalls ≤ 1 ∧
    (∀ m, get_youtube_transcript_any env url = Except.error m →
      add_transcript_to_collection env addOk fresh url coll =
        { ret := Except.error (IngestFailure.FetchError m), coll := coll,
          addCalls := 0 }) ∧
    (∀ t, get_youtube_transcript_any env url = Except.ok t →
      t.all Char.isWhitespace = true →
      add_transcript_to_collection env addOk fresh url coll =
        { ret := Except.error IngestFailure.EmptyContent, coll := coll,
          addCalls := 0 }) ∧
    (∀ e, (add_transcript_to_collection env addOk fresh url coll).ret =
        Except.error e →
      (add_transcript_to_collection env addOk fresh url coll).coll = coll) ∧
    (∀ rid, (add_transcript_to_collection env addOk fresh url coll).ret =
        Except.ok rid →
      ∃ t, (add_transcript_to_collection env addOk fresh url coll).coll =
          coll ++ [{ id := rid, doc := t, url := url }] ∧
        (add_transcript_to_collection env addOk fresh url coll).addCalls = 1) := by
  refine ⟨?_, ?_, ?_, ?_, ?_⟩
  · cases hf : get_youtube_transcript_any env url with
    | error m =>
        rw [add_run_fetch_err env addOk fresh url coll m hf]
        simp
    | ok t =>
        by_cases hw : t.all Char.isWhitespace = true
        · rw [add_run_empty env addOk fresh url coll t hf hw]
          simp
        · have hw2 : t.all Char.isWhitespace = false := by simpa using hw
          cases addOk with
          | false =>
              rw [add_run_write_fail env fresh url coll t hf hw2]
          | true =>
              rw [add_run_ok env fresh url coll t hf hw2]
  · intro m hm
    exact add_run_fetch_err env addOk fresh url coll m hm
  · intro t ht hw
    exact add_run_empty env addOk fresh url coll t ht hw
  · intro e he
    cases hf : get_youtube_transcript_any env url with
    | error m => rw [add_run_fetch_err env addOk fresh url coll m hf]
    | ok t =>
        by_cases hw : t.all Char.isWhitespace = true
        · rw [add_run_empty env addOk fresh url coll t hf hw]
        · have hw2 : t.all Char.isWhitespace = false := by simpa using hw
          cases addOk with
          | false => rw [add_run_write_fail env fresh url coll t hf hw2]
          | true =>
              rw [add_run_ok env fresh url coll t hf hw2] at he
              simp at he
  · intro rid hr
    cases hf : get_youtube_transcript_any env url with
    | error m =>
        rw [add_run_fetch_err env addOk fresh url coll m hf] at hr
        simp at hr
    | ok t =>
        by_cases hw : t.all Char.isWhitespace = true
        · rw [add_run_empty env addOk fresh url coll t hf hw] at hr
          simp at hr
        · have hw2 : t.all Char.isWhitespace = false := by simpa using hw
          cases addOk with
          | false =>
              rw [add_run_write_fail env fresh url coll t hf hw2] at hr
              simp at hr
          | true =>
              rw [add_run_ok env fresh url coll t hf hw2] at hr
              have hrid : rid = fresh := by
                simp at hr
                omega
              subst hrid
              refine ⟨t, ?_, ?_⟩
              · rw [add_run_ok env rid url coll t hf hw2]
              · rw [add_run_ok env rid url coll t hf hw2]

/-- Witness for C10: in an environment where every strategy fails, the
call returns the caught fetch failure, adds nothing and never calls
`collection.add`. -/
theorem C10_no_propagation_witness :
    add_transcript_to_collection envAllFail true 0 urlOk [] =
      { ret := Except.error
          (IngestFailure.FetchError (diagnosticsMsg true true true)),
        coll := [], addCalls := 0 } :=
  (C10_no_propagation envAllFail true 0 urlOk []).2.1
    (diagnosticsMsg true true true) (by rfl)

/-- Counterexample to claim C1: on a successful ingestion of the
eight-token transcript, the code stores the whole raw text as one single
entry, while the spec's Chunker at `(size, overlap) = (4, 1)` produces
three chunks — so the pipeline does not write one index entry per chunk,
and the single stored document is the raw text, not a chunk. -/
theorem C1_counterexample :
    (add_transcript_to_collection envOkT true 0 urlOk []).coll =
      [{ id := 0, doc := fullT, url := urlOk }] ∧
    chunk fullT 4 1 0 =
      Except.ok [("a b c d").toList, ("d e f g").toList, ("g h").toList] ∧
    (add_transcript_to_collection envOkT true 0 urlOk []).coll.length ≠ 3 ∧
    fullT ≠ ("a b c d").toList := by
  refine ⟨by rfl, by rfl, by decide, by decide⟩

/-- Claim C1 as amended: for every ingestion that succeeds, the pipeline
writes the whole `raw_text` as exactly one index entry — a single document
carrying a fresh id and metadata `url` appended to the collection — and
performs no chunking. -/
theorem C1_single_entry (env : FetchEnv) (fresh : Nat) (url : List Char)
    (coll : List Entry) (t : List Char)
    (hf : get_youtube_transcript_any env url = Except.ok t)
    (hw : t.all Char.isWhitespace = false) :
    add_transcript_to_collection env true fresh url coll =
      { ret := Except.ok fresh,
        coll := coll ++ [{ id := fresh, doc := t, url := url }],
        addCalls := 1 } ∧
    (add_transcript_to_collection env true fresh url coll).coll.length =
      coll.length + 1 := by
  have hrun := add_run_ok env fresh url coll t hf hw
  refine ⟨hrun, ?_⟩
  rw [hrun]
  simp

/-- Witness for the amended C1: ingesting the eight-token transcript into
an empty collection stores exactly one whole-text entry. -/
theorem C1_single_entry_witness :
    add_transcript_to_collection envOkT true 5 urlOk [] =
      { ret := Except.ok 5,
        coll := [] ++ [{ id := 5, doc := fullT, url := urlOk }],
        addCalls := 1 } ∧
    (add_transcript_to_collection envOkT true 5 urlOk []).coll.length =
      ([] : List Entry).length + 1 :=
  C1_single_entry envOkT 5 urlOk [] fullT (by rfl) (by decide)

/-- Counterexample to claim C7: with all three acquisition strategies
available and failing for the distinct reasons "boom1"/"boom2"/"boom3",
the final error is only the installed-library diagnostics string; none of
the attempts' failure reasons occurs in it, so the final error does not
carry every attempt's failure reason. -/
theorem C7_counterexample :
    get_youtube_transcript_any envAllFail urlOk =
      Except.error (diagnosticsMsg true true true) ∧
    hasSub (("boom1").toList) (diagnosticsMsg true true true) = false ∧
    hasSub (("boom2").toList) (diagnosticsMsg true true true) = false ∧
    hasSub (("boom3").toList) (diagnosticsMsg true true true) = false := by
  refine ⟨by rfl, by decide, by decide, by decide⟩

/-- Claim C7 as amended: when every strategy in the fallback chain fails,
the final error is exactly the diagnostics message reporting which
acquisition libraries are installed; the individual attempts' failure
reasons are swallowed — the final message is the same whatever the reasons
were. -/
theorem C7_diagnostics_only (ya pa ra : Bool) (r1 r2 r3 url vid : List Char)
    (hv : extract_video_id url = some vid) :
    get_youtube_transcript_any
        ⟨ya, pa, ra, Except.error r1, Except.error r2, Except.error r3⟩ url =
      Except.error (diagnosticsMsg ya pa ra) := by
  unfold get_youtube_transcript_any tryPytube tryTimedtext
  rw [hv]
  cases ya <;> cases pa <;> cases ra <;> simp

/-- Witness for the amended C7 at the all-available, all-failing
environment and a well-formed URL. -/
theorem C7_diagnostics_only_witness :
    get_youtube_transcript_any
        ⟨true, true, true, Except.error (("boom1").toList),
          Except.error (("boom2").toList), Except.error (("boom3").toList)⟩
        urlOk =
      Except.error (diagnosticsMsg true true true) :=
  C7_diagnostics_only true true true (("boom1").toList) (("boom2").toList)
    (("boom3").toList) urlOk (("abcdefghijk").toList) (by rfl)

/-- Claim C6: for every non-empty query and every `k`, `retrieve` succeeds
with at most `k` matches, returns fewer than `k` only when the index holds
fewer than `k` chunks, and returns the empty sequence (not an error) on an
empty index. -/
theorem C6_topk_bound (q : List Char) (k : Nat) (idx : List StoredChunk)
    (score : StoredChunk → Int)
    (hq : q.all Char.isWhitespace = false) :
    ∃ ms, retrieve q k idx score = Except.ok ms ∧
      ms.length ≤ k ∧
      (ms.length < k → idx.length < k) ∧
      (idx = [] → ms = []) := by
  refine ⟨queryIndex idx score k, ?_, ?_, ?_, ?_⟩
  · simp [retrieve, hq]
  · unfold queryIndex
    rw [List.length_take, List.length_insertionSort]
    exact Nat.min_le_left _ _
  · intro hlt
    unfold queryIndex at hlt
    rw [List.length_take, List.length_insertionSort] at hlt
    omega
  · intro hidx
    subst hidx
    simp [queryIndex]

/-- Witness for C6: the query "hi" with `k = 2` on the empty index returns
the empty match list. -/
theorem C6_topk_bound_witness :
    ∃ ms, retrieve (("hi").toList) 2 [] (fun _ => 0) = Except.ok ms ∧
      ms.length ≤ 2 ∧
      (ms.length < 2 → ([] : List StoredChunk).length < 2) ∧
      (([] : List StoredChunk) = [] → ms = []) :=
  C6_topk_bound (("hi").toList) 2 [] (fun _ => 0) (by decide)
